import Mathlib

/-!
# A shallow embedding of `crates/sqlez/src/connection.rs`

This file embeds the `Connection` wrapper of the `sqlez` crate in Lean 4 and
proves the specified properties of its operations.

The Rust code is a thin safe layer over the SQLite C API.  The C library
itself is external to the crate, so it is modelled here as an explicit state
machine: an `Engine` value holds the open handles, the database stores they
reference, oracles for the outcomes the library may choose (whether an open
succeeds, what a SQL text does to a store, the error-message table), and an
event log recording every call issued on a handle.  Each Rust method of
`Connection` is then translated line by line into a Lean function that
threads the `Engine` state.  Rust `Result` values together with panics are
embedded as the three-way `Outcome` type.
-/

namespace Sqlez

/-! ## SQLite result codes and open flags (from `libsqlite3_sys`) -/

/-- `SQLITE_OK`: successful result. -/
def SQLITE_OK : Int := 0

/-- `SQLITE_ROW`: `sqlite3_step` has another row ready. -/
def SQLITE_ROW : Int := 100

/-- `SQLITE_ERROR`: generic error. -/
def SQLITE_ERROR : Int := 1

/-- `SQLITE_CANTOPEN`: unable to open the database file. -/
def SQLITE_CANTOPEN : Int := 14

/-- `SQLITE_MISUSE`: the library was used incorrectly, e.g. called through a
null handle. -/
def SQLITE_MISUSE : Int := 21

/-- `SQLITE_OPEN_READWRITE` flag. -/
def SQLITE_OPEN_READWRITE : Int := 2

/-- `SQLITE_OPEN_CREATE` flag. -/
def SQLITE_OPEN_CREATE : Int := 4

/-- `SQLITE_OPEN_NOMUTEX` flag: the handle is opened without the engine-level
mutex, so it must not be used concurrently from two threads. -/
def SQLITE_OPEN_NOMUTEX : Int := 32768

/-! ## Errors, panics and the `Outcome` of a Rust call -/

/-- The errors `connection.rs` can produce: a `NulError` from
`CString::new` when the Rust string holds an interior NUL byte, or a SQLite
error built by `error_to_result` carrying the numeric result code and the
engine-supplied message when one exists. -/
inductive SqlError where
  | nulError : SqlError
  | sqlite (code : Int) (message : Option String) : SqlError
deriving DecidableEq

/-- The outcome of a Rust computation: `Ok`, `Err`, or a panic carrying the
panic message.  Rust functions returning `Result` are embedded with the
`panic` constructor available so that absence of panics is a provable
property rather than a typing artifact. -/
inductive Outcome (α : Type) where
  | ok (a : α) : Outcome α
  | err (e : SqlError) : Outcome α
  | panic (msg : String) : Outcome α
deriving DecidableEq

/-- Whether an `Outcome` is a panic. -/
def Outcome.isPanic {α : Type} : Outcome α → Bool
  | .panic _ => true
  | _ => false

/-- Whether an `Outcome` is an `Err`. -/
def Outcome.isErr {α : Type} : Outcome α → Bool
  | .err _ => true
  | _ => false

/-- `CString::new`: fails with a `NulError` exactly when the string holds an
interior NUL byte; otherwise the C string has the same contents. -/
def cstring_new (s : String) : Outcome String :=
  if s.data.contains (Char.ofNat 0) then .err .nulError else .ok s

/-! ## The model of the SQLite engine -/

/-- What an open handle references: a file-backed database identified by its
path, or a named shared in-memory database identified by the full
`file:...?mode=memory&cache=shared` URI.  Two handles holding the same
`DbRef` read and write the same store; this is how SQLite's shared-cache
in-memory mode is modelled. -/
inductive DbRef where
  | file (path : String) : DbRef
  | mem (uri : String) : DbRef
deriving DecidableEq

/-- The contents of one database's `main` store, abstracted as a list of
rows. -/
abbrev Store := List Int

/-- Classifies a URI the way the engine (compiled with URI filenames
enabled, as `libsqlite3-sys`'s bundled build is) does for the URIs this
crate constructs: `file:` scheme with `mode=memory&cache=shared` opens a
named shared in-memory database; anything else is a file path. -/
def isMemUri (s : String) : Bool :=
  "file:".data.isPrefixOf s.data &&
    "?mode=memory&cache=shared".data.isSuffixOf s.data

/-- The database a URI resolves to. -/
def parseUri (s : String) : DbRef :=
  if isMemUri s then .mem s else .file s

/-- The per-handle state the engine keeps: which database the handle is
connected to, the error code of the most recent call, the last-inserted
rowid, and whether `sqlite3_close` has been called on it. -/
structure HandleState where
  db : DbRef
  errcode : Int
  lastInsertRowid : Int
  closed : Bool
deriving DecidableEq

/-- The engine calls that operate on a handle, recorded in the event log. -/
inductive EvKind where
  | openEv : EvKind
  | extcodesEv : EvKind
  | errcodeEv : EvKind
  | execEv : EvKind
  | rowidEv : EvKind
  | prepareEv : EvKind
  | backupEv : EvKind
  | backupStepEv : EvKind
  | backupFinishEv : EvKind
  | closeEv : EvKind
deriving DecidableEq

/-- One logged engine call: its kind and the handle it was issued on. -/
structure Event where
  kind : EvKind
  handle : Nat
deriving DecidableEq

/-- What the engine decides a SQL text does to a store: the new store
contents, the resulting error code, and the new last-insert rowid when the
text inserted a row. -/
structure ExecOutcome where
  newStore : Store
  code : Int
  newRowid : Option Int

/-- The modelled state of the SQLite library: the stores, the handle table
(handle ids are indices into it), the oracles fixing the library's choices
(`openOk`: whether `sqlite3_open_v2` succeeds on a URI, e.g. filesystem
availability; `execSem`: the interpretation of SQL text; `prepOk`: the
result code of compiling a statement; `errstr`: the `sqlite3_errstr`
message table, `none` standing for a NULL message pointer), and the log of
calls issued on handles. -/
structure Engine where
  stores : List (DbRef × Store)
  handles : List HandleState
  openOk : String → Bool
  execSem : String → Store → ExecOutcome
  prepOk : String → Int
  errstr : Int → Option String
  events : List Event

/-- Index-based lookup in the handle table. -/
def hget {α : Type} : List α → Nat → Option α
  | [], _ => none
  | a :: _, 0 => some a
  | _ :: t, n + 1 => hget t n

/-- Index-based update of the handle table. -/
def hset {α : Type} : List α → Nat → α → List α
  | [], _, _ => []
  | _ :: t, 0, b => b :: t
  | a :: t, n + 1, b => a :: hset t n b

/-- The contents of a database, empty when it has never been written. -/
def getStore : List (DbRef × Store) → DbRef → Store
  | [], _ => []
  | (r, s) :: rest, q => if r = q then s else getStore rest q

/-- Replace the contents of a database. -/
def setStore : List (DbRef × Store) → DbRef → Store → List (DbRef × Store)
  | [], q, v => [(q, v)]
  | (r, s) :: rest, q, v =>
    if r = q then (r, v) :: rest else (r, s) :: setStore rest q v

/-! ## The modelled C API calls -/

/-- `sqlite3_open_v2`: allocates a fresh handle (SQLite allocates the handle
even when the open fails, so that the caller can read the error and must
still close it), resolves the URI, and on success connects the handle to the
database; a database that has never been written reads as the empty store
(`getStore` defaults to `[]`).  Returns the new handle id; the C return code
is not modelled separately because the caller under study ignores it and
reads `sqlite3_errcode` instead. -/
def sqlite3_open_v2 (e : Engine) (uri : String) (_flags : Int) :
    Nat × Engine :=
  let h := e.handles.length
  let ref := parseUri uri
  if e.openOk uri then
    (h, { e with
            handles := e.handles ++ [⟨ref, SQLITE_OK, 0, false⟩],
            events := e.events ++ [⟨.openEv, h⟩] })
  else
    (h, { e with
            handles := e.handles ++ [⟨ref, SQLITE_CANTOPEN, 0, false⟩],
            events := e.events ++ [⟨.openEv, h⟩] })

/-- `sqlite3_extended_result_codes`: administrative toggle; it only logs the
call in this model. -/
def sqlite3_extended_result_codes (e : Engine) (h : Option Nat)
    (_onoff : Int) : Engine :=
  match h with
  | none => e
  | some h => { e with events := e.events ++ [⟨.extcodesEv, h⟩] }

/-- `sqlite3_errcode`: the result code of the most recent call on the
handle; `SQLITE_MISUSE` through a null or unknown handle. -/
def sqlite3_errcode (e : Engine) (h : Option Nat) : Int × Engine :=
  match h with
  | none => (SQLITE_MISUSE, e)
  | some h =>
    match hget e.handles h with
    | none => (SQLITE_MISUSE, e)
    | some hs =>
      (hs.errcode, { e with events := e.events ++ [⟨.errcodeEv, h⟩] })

/-- `sqlite3_exec`: runs the SQL text against the handle's database per the
`execSem` oracle, updating the store, the handle's error code and (when the
text inserted a row) its last-insert rowid. -/
def sqlite3_exec (e : Engine) (h : Option Nat) (sql : String) : Engine :=
  match h with
  | none => e
  | some h =>
    match hget e.handles h with
    | none => e
    | some hs =>
      let out := e.execSem sql (getStore e.stores hs.db)
      { e with
          stores := setStore e.stores hs.db out.newStore,
          handles := hset e.handles h
            { hs with
                errcode := out.code,
                lastInsertRowid := out.newRowid.getD hs.lastInsertRowid },
          events := e.events ++ [⟨.execEv, h⟩] }

/-- `sqlite3_last_insert_rowid`: the rowid of the most recent successful
insert on this handle; 0 through a null or unknown handle. -/
def sqlite3_last_insert_rowid (e : Engine) (h : Option Nat) : Int × Engine :=
  match h with
  | none => (0, e)
  | some h =>
    match hget e.handles h with
    | none => (0, e)
    | some hs =>
      (hs.lastInsertRowid,
       { e with events := e.events ++ [⟨.rowidEv, h⟩] })

/-- A backup object produced by `sqlite3_backup_init`: the two handles it
copies between. -/
structure BackupHandle where
  dst : Nat
  src : Nat
deriving DecidableEq

/-- `sqlite3_backup_init`: NULL (modelled as `none`) when a handle is
invalid or when source and destination are the same database, recording the
failure on the destination handle; otherwise a backup object. -/
def sqlite3_backup_init (e : Engine) (hdst : Option Nat)
    (_dstName : String) (hsrc : Option Nat) (_srcName : String) :
    Option BackupHandle × Engine :=
  match hdst, hsrc with
  | some hd, some hs =>
    (match hget e.handles hd, hget e.handles hs with
     | some dstSt, some srcSt =>
       if dstSt.db = srcSt.db then
         (none, { e with
                    handles := hset e.handles hd
                      { dstSt with errcode := SQLITE_ERROR },
                    events := e.events ++ [⟨.backupEv, hd⟩] })
       else
         (some ⟨hd, hs⟩,
          { e with
              events := e.events ++ [⟨.backupEv, hd⟩, ⟨.backupEv, hs⟩] })
     | _, _ => (none, e))
  | _, _ => (none, e)

/-- `sqlite3_backup_step` with page count `-1` as the caller under study
issues it: replaces the destination's entire store with the source's store
in one step and records success on the destination handle.  A no-op through
a NULL backup object. -/
def sqlite3_backup_step (e : Engine) (b : Option BackupHandle)
    (_pages : Int) : Engine :=
  match b with
  | none => e
  | some b =>
    match hget e.handles b.dst, hget e.handles b.src with
    | some dstSt, some srcSt =>
      { e with
          stores := setStore e.stores dstSt.db (getStore e.stores srcSt.db),
          handles := hset e.handles b.dst { dstSt with errcode := SQLITE_OK },
          events := e.events ++ [⟨.backupStepEv, b.dst⟩] }
    | _, _ => e

/-- `sqlite3_backup_finish`: releases the backup object; a no-op through a
NULL backup object. -/
def sqlite3_backup_finish (e : Engine) (b : Option BackupHandle) : Engine :=
  match b with
  | none => e
  | some b => { e with events := e.events ++ [⟨.backupFinishEv, b.dst⟩] }

/-- `sqlite3_close`: marks the handle closed and logs the call.  Closing a
null handle is a documented harmless no-op. -/
def sqlite3_close (e : Engine) (h : Option Nat) : Engine :=
  match h with
  | none => e
  | some h =>
    match hget e.handles h with
    | none => e
    | some hs =>
      { e with
          handles := hset e.handles h { hs with closed := true },
          events := e.events ++ [⟨.closeEv, h⟩] }

/-! ## The `Connection` type and its methods (`connection.rs`) -/

/-- `Connection`: owns one native engine handle (`sqlite3`, a nullable
pointer modelled as `Option Nat`) and the `persistent` flag distinguishing
file-backed from memory-backed instances.  The `PhantomData` marker field
carries no data and is dropped from the model. -/
structure Connection where
  sqlite3 : Option Nat
  persistent : Bool
deriving DecidableEq

/-- `error_to_result`: `SQLITE_OK` and `SQLITE_ROW` are the only non-error
codes; every other code becomes an error carrying the numeric code and the
`sqlite3_errstr` message, with a NULL message recorded as `none`.  The
`errstr` argument is the model of the global `sqlite3_errstr` table. -/
def error_to_result (errstr : Int → Option String) (code : Int) :
    Outcome Unit :=
  if code ∈ [SQLITE_OK, SQLITE_ROW] then .ok ()
  else .err (.sqlite code (errstr code))

/-- `Connection::last_error`: reads `sqlite3_errcode` on this connection's
handle and maps it through `error_to_result`. -/
def Connection.last_error (c : Connection) (e : Engine) :
    Outcome Unit × Engine :=
  let (code, e1) := sqlite3_errcode e c.sqlite3
  (error_to_result e1.errstr code, e1)

/-- `Connection::open`: builds the connection value with a null handle, then
opens the URI with `SQLITE_OPEN_CREATE | SQLITE_OPEN_NOMUTEX |
SQLITE_OPEN_READWRITE`, turns on extended result codes, and checks
`last_error`.  The `?` on `CString::new(uri)` returns the `NulError` before
any engine call (dropping the still-null local connection closes nothing).
When `last_error` reports a failure, the early return drops the local
connection, which closes the freshly allocated handle. -/
def Connection.open_ (uri : String) (persistent : Bool) (e : Engine) :
    Outcome Connection × Engine :=
  match cstring_new uri with
  | .err er => (.err er, e)
  | .panic m => (.panic m, e)
  | .ok curi =>
    let flags := SQLITE_OPEN_CREATE + SQLITE_OPEN_NOMUTEX +
      SQLITE_OPEN_READWRITE
    let (h, e1) := sqlite3_open_v2 e curi flags
    let e2 := sqlite3_extended_result_codes e1 (some h) 1
    let connection : Connection := ⟨some h, persistent⟩
    match connection.last_error e2 with
    | (.ok _, e3) => (.ok connection, e3)
    | (.err er, e3) => (.err er, sqlite3_close e3 (some h))
    | (.panic m, e3) => (.panic m, e3)

/-- `Connection::open_memory`: formats the shared in-memory URI
`file:` + `uri` + `?mode=memory&cache=shared`, opens it with
`persistent = false`, and `.expect`s the result — an open failure here is a
panic, not an error return. -/
def Connection.open_memory (uri : String) (e : Engine) :
    Outcome Connection × Engine :=
  let in_memory_path : String := "file:" ++ uri ++ "?mode=memory&cache=shared"
  match Connection.open_ in_memory_path false e with
  | (.ok c, e1) => (.ok c, e1)
  | (.err _, e1) => (.panic "Could not create fallback in memory db", e1)
  | (.panic m, e1) => (.panic m, e1)

/-- `Connection::open_file`: attempts the persistent open; on any error it
discards the error and returns `open_memory` on the same URI
(`unwrap_or_else`). -/
def Connection.open_file (uri : String) (e : Engine) :
    Outcome Connection × Engine :=
  match Connection.open_ uri true e with
  | (.ok c, e1) => (.ok c, e1)
  | (.err _, e1) => Connection.open_memory uri e1
  | (.panic m, e1) => (.panic m, e1)

/-- `Connection::last_insert_id`: reads `sqlite3_last_insert_rowid` on this
connection's handle. -/
def Connection.last_insert_id (c : Connection) (e : Engine) : Int × Engine :=
  sqlite3_last_insert_rowid e c.sqlite3

/-- `Connection::exec`: converts the query to a C string (the `?` returns
the `NulError` before any engine call), runs `sqlite3_exec`, issues the
spurious `sqlite3_errcode` read the source contains, and returns
`last_error`. -/
def Connection.exec (c : Connection) (query : String) (e : Engine) :
    Outcome Unit × Engine :=
  match cstring_new query with
  | .err er => (.err er, e)
  | .panic m => (.panic m, e)
  | .ok csql =>
    let e1 := sqlite3_exec e c.sqlite3 csql
    let (_, e2) := sqlite3_errcode e1 c.sqlite3
    Connection.last_error c e2

/-- `Connection::insert`: `exec` the query, propagating its error with `?`,
then return `last_insert_id`. -/
def Connection.insert (c : Connection) (query : String) (e : Engine) :
    Outcome Int × Engine :=
  match Connection.exec c query e with
  | (.err er, e1) => (.err er, e1)
  | (.panic m, e1) => (.panic m, e1)
  | (.ok _, e1) =>
    let (id, e2) := Connection.last_insert_id c e1
    (.ok id, e2)

/-- A prepared statement as far as this file needs it: the compiled query
text. -/
structure Statement where
  sql : String
deriving DecidableEq

/-- Modelled from the spec: `Statement::prepare` lives in
`crates/sqlez/src/statement.rs`, which is not among the sources; per the
spec it compiles `sql` into a reusable prepared-statement handle bound to
this connection, checking the engine result code like every other call.
Modelled as: C-string conversion, a compile whose result code the `prepOk`
oracle fixes, recorded on the connection's handle, then the usual error
mapping. -/
def Statement.prepare (c : Connection) (sql : String) (e : Engine) :
    Outcome Statement × Engine :=
  match cstring_new sql with
  | .err er => (.err er, e)
  | .panic m => (.panic m, e)
  | .ok csql =>
    match c.sqlite3 with
    | none => (.err (.sqlite SQLITE_MISUSE (e.errstr SQLITE_MISUSE)), e)
    | some h =>
      match hget e.handles h with
      | none => (.err (.sqlite SQLITE_MISUSE (e.errstr SQLITE_MISUSE)), e)
      | some hs =>
        let code := e.prepOk csql
        let e1 := { e with
                      handles := hset e.handles h { hs with errcode := code },
                      events := e.events ++ [⟨.prepareEv, h⟩] }
        match error_to_result e1.errstr code with
        | .ok _ => (.ok ⟨csql⟩, e1)
        | .err er => (.err er, e1)
        | .panic m => (.panic m, e1)

/-- `Connection::prepare`: delegates to `Statement::prepare`. -/
def Connection.prepare (c : Connection) (query : String) (e : Engine) :
    Outcome Statement × Engine :=
  Statement.prepare c query e

/-- `Connection::backup_main`: initializes a backup of database `main` of
this connection into database `main` of `destination`, steps it with page
count `-1` (the whole store at once), finishes it, and returns the
destination's `last_error`. -/
def Connection.backup_main (c : Connection) (destination : Connection)
    (e : Engine) : Outcome Unit × Engine :=
  match cstring_new "main" with
  | .err er => (.err er, e)
  | .panic m => (.panic m, e)
  | .ok dstName =>
    match cstring_new "main" with
    | .err er => (.err er, e)
    | .panic m => (.panic m, e)
    | .ok srcName =>
      let (b, e1) := sqlite3_backup_init e destination.sqlite3 dstName
        c.sqlite3 srcName
      let e2 := sqlite3_backup_step e1 b (-1)
      let e3 := sqlite3_backup_finish e2 b
      Connection.last_error destination e3

/-- `impl Drop for Connection`: unconditionally calls `sqlite3_close` on the
owned handle. -/
def Connection.drop (c : Connection) (e : Engine) : Engine :=
  sqlite3_close e c.sqlite3

/-! ## Lifetimes: Rust's ownership discipline over a Connection

Rust guarantees that a `Connection`'s methods run between its construction
and its drop, and that the drop runs exactly once when the owning scope
ends.  A lifetime is therefore a successful open, a sequence of method
calls, and the drop; when the open itself fails, the error path inside
`open` already dropped the local connection. -/

/-- One public `Connection` method call, as it appears in a lifetime. -/
inductive ConnOp where
  | execOp (sql : String) : ConnOp
  | insertOp (sql : String) : ConnOp
  | prepareOp (sql : String) : ConnOp
  | backupOp (destination : Connection) : ConnOp
  | persistentOp : ConnOp

/-- The effect of one method call on the connection (all methods take
`&self`, so the connection value is returned as the method left it) and on
the engine. -/
def applyOp (c : Connection) (e : Engine) : ConnOp → Connection × Engine
  | .execOp sql => (c, (Connection.exec c sql e).2)
  | .insertOp sql => (c, (Connection.insert c sql e).2)
  | .prepareOp sql => (c, (Connection.prepare c sql e).2)
  | .backupOp d => (c, (Connection.backup_main c d e).2)
  | .persistentOp => (c, e)

/-- Runs a sequence of method calls. -/
def runOps (c : Connection) (e : Engine) : List ConnOp → Connection × Engine
  | [] => (c, e)
  | op :: rest =>
    let (c1, e1) := applyOp c e op
    runOps c1 e1 rest

/-- A full connection lifetime: open, the method calls, then the drop at end
of scope.  When the open fails, its own error path already dropped the local
connection and no methods run. -/
def lifetime (uri : String) (persistent : Bool) (ops : List ConnOp)
    (e : Engine) : Engine :=
  match Connection.open_ uri persistent e with
  | (.ok c, e1) =>
    let (c2, e2) := runOps c e1 ops
    Connection.drop c2 e2
  | (.err _, e1) => e1
  | (.panic _, e1) => e1

/-! ## Concrete fixtures used by the witnesses -/

/-- An engine with no open handles in which every open succeeds, every SQL
text appends a row and sets the last-insert rowid to 1, and every message
pointer is NULL. -/
def okEngine : Engine where
  stores := []
  handles := []
  openOk := fun _ => true
  execSem := fun _ st => ⟨st ++ [7], SQLITE_OK, some 1⟩
  prepOk := fun _ => SQLITE_OK
  errstr := fun _ => none
  events := []

/-- An engine in which only shared in-memory opens succeed: the filesystem
is unavailable. -/
def noFsEngine : Engine :=
  { okEngine with openOk := fun u => isMemUri u }

/-- An engine in which every open fails. -/
def deadEngine : Engine :=
  { okEngine with openOk := fun _ => false }

/-- An engine holding two already-open handles connected to distinct
databases with distinct contents. -/
def twoDbEngine : Engine :=
  { okEngine with
      handles := [⟨.file "a.db", SQLITE_OK, 0, false⟩,
                  ⟨.mem "file:b?mode=memory&cache=shared", SQLITE_OK, 0,
                   false⟩],
      stores := [(.file "a.db", [1, 2, 3]),
                 (.mem "file:b?mode=memory&cache=shared", [9])] }

/-- The connection owning handle 0 of `twoDbEngine`. -/
def connA : Connection := ⟨some 0, true⟩

/-- The connection owning handle 1 of `twoDbEngine`. -/
def connB : Connection := ⟨some 1, false⟩

/-- The engine after `open_memory "m"` on `okEngine`. -/
def memE1 : Engine :=
  { okEngine with
      handles := [⟨.mem "file:m?mode=memory&cache=shared", SQLITE_OK, 0,
                   false⟩],
      events := [⟨.openEv, 0⟩, ⟨.extcodesEv, 0⟩, ⟨.errcodeEv, 0⟩] }

/-- The engine after a second `open_memory "m"` on `memE1`. -/
def memE2 : Engine :=
  { memE1 with
      handles := memE1.handles ++
        [⟨.mem "file:m?mode=memory&cache=shared", SQLITE_OK, 0, false⟩],
      events := memE1.events ++
        [⟨.openEv, 1⟩, ⟨.extcodesEv, 1⟩, ⟨.errcodeEv, 1⟩] }

/-! ## Specification-side predicates -/

/-- The range of a 64-bit signed integer, the type of
`sqlite3_last_insert_rowid`. -/
def i64Range (n : Int) : Prop := -(2 ^ 63) ≤ n ∧ n < 2 ^ 63

/-- Well-formedness of an engine: every rowid it holds or produces fits a
64-bit signed integer, as the C type `sqlite3_int64` does. -/
structure EngineWF (e : Engine) : Prop where
  rowidsInRange : ∀ hs ∈ e.handles, i64Range hs.lastInsertRowid
  execRowidInRange : ∀ sql st r, (e.execSem sql st).newRowid = some r →
    i64Range r

/-- `e'` extends `e` by appending events none of which is a close: the step
from `e` to `e'` issued no `sqlite3_close`. -/
def NoCloseExt (e e' : Engine) : Prop :=
  ∃ l, e'.events = e.events ++ l ∧ ∀ ev ∈ l, ev.kind ≠ EvKind.closeEv

/-! ## Helper lemmas about the table operations -/

theorem hget_append_self {α : Type} (l : List α) (a : α) :
    hget (l ++ [a]) l.length = some a := by
  induction l with
  | nil => rfl
  | cons x t ih => simpa [hget] using ih

theorem hget_append_left {α : Type} (l l' : List α) (n : Nat)
    (h : n < l.length) : hget (l ++ l') n = hget l n := by
  induction l generalizing n with
  | nil => simp at h
  | cons x t ih =>
    cases n with
    | zero => rfl
    | succ m => simpa [hget] using ih m (by simpa using h)

theorem hset_append_self {α : Type} (l : List α) (a b : α) :
    hset (l ++ [a]) l.length b = l ++ [b] := by
  induction l with
  | nil => rfl
  | cons x t ih => simpa [hset] using ih

theorem hget_hset_self {α : Type} (l : List α) (n : Nat) (a b : α)
    (h : hget l n = some b) : hget (hset l n a) n = some a := by
  induction l generalizing n with
  | nil => simp [hget] at h
  | cons x t ih =>
    cases n with
    | zero => rfl
    | succ m => simpa [hget, hset] using ih m (by simpa [hget] using h)

theorem hget_hset_ne {α : Type} (l : List α) (n m : Nat) (a : α)
    (h : n ≠ m) : hget (hset l n a) m = hget l m := by
  induction l generalizing n m with
  | nil => rfl
  | cons x t ih =>
    cases n with
    | zero =>
      cases m with
      | zero => exact absurd rfl h
      | succ k => rfl
    | succ n' =>
      cases m with
      | zero => rfl
      | succ k => simpa [hget, hset] using ih n' k fun hnk => h (by rw [hnk])

theorem hget_hset_isSome {α : Type} (l : List α) (n m : Nat) (a : α) :
    (hget (hset l n a) m).isSome = (hget l m).isSome := by
  induction l generalizing n m with
  | nil => rfl
  | cons x t ih =>
    cases n with
    | zero => cases m with | zero => rfl | succ k => rfl
    | succ n' =>
      cases m with
      | zero => rfl
      | succ k => simpa [hget, hset] using ih n' k

theorem hget_mem {α : Type} (l : List α) (n : Nat) (a : α)
    (h : hget l n = some a) : a ∈ l := by
  induction l generalizing n with
  | nil => simp [hget] at h
  | cons x t ih =>
    cases n with
    | zero => simp [hget] at h; simp [h]
    | succ m => exact List.mem_cons_of_mem x (ih m (by simpa [hget] using h))

theorem getStore_setStore_self (l : List (DbRef × Store)) (q : DbRef)
    (v : Store) : getStore (setStore l q v) q = v := by
  induction l with
  | nil => simp [getStore, setStore]
  | cons p t ih =>
    by_cases h : p.1 = q
    · simp [getStore, setStore, h]
    · simp [getStore, setStore, h, ih]

theorem getStore_setStore_ne (l : List (DbRef × Store)) (q r : DbRef)
    (v : Store) (h : r ≠ q) : getStore (setStore l q v) r = getStore l r := by
  have h' : q ≠ r := Ne.symm h
  induction l with
  | nil => simp [getStore, setStore, h']
  | cons p t ih =>
    obtain ⟨p1, p2⟩ := p
    by_cases hp : p1 = q
    · subst hp
      simp [getStore, setStore, h']
    · simp only [getStore, setStore, if_neg hp]
      by_cases hr : p1 = r
      · subst hr
        simp [getStore]
      · simp [getStore, hr, ih]

/-! ## Helper lemmas about `CString::new` and `error_to_result` -/

theorem cstring_new_ok (s : String)
    (h : s.data.contains (Char.ofNat 0) = false) : cstring_new s = .ok s := by
  unfold cstring_new
  rw [h]
  simp

theorem cstring_new_nul (s : String)
    (h : s.data.contains (Char.ofNat 0) = true) :
    cstring_new s = .err .nulError := by
  unfold cstring_new
  rw [h]
  simp

theorem error_to_result_okCode (f : Int → Option String) :
    error_to_result f SQLITE_OK = .ok () := by
  simp [error_to_result]

theorem error_to_result_rowCode (f : Int → Option String) :
    error_to_result f SQLITE_ROW = .ok () := by
  simp [error_to_result]

theorem error_to_result_errCode (f : Int → Option String) (code : Int)
    (h1 : code ≠ SQLITE_OK) (h2 : code ≠ SQLITE_ROW) :
    error_to_result f code = .err (.sqlite code (f code)) := by
  simp [error_to_result, h1, h2]

/-! ## Characterization of `Connection::open` -/

theorem open_nul (uri : String) (p : Bool) (e : Engine)
    (hn : uri.data.contains (Char.ofNat 0) = true) :
    Connection.open_ uri p e = (.err .nulError, e) := by
  simp only [Connection.open_, cstring_new_nul uri hn]

theorem open_spec_ok (uri : String) (p : Bool) (e : Engine)
    (hn : uri.data.contains (Char.ofNat 0) = false)
    (ho : e.openOk uri = true) :
    Connection.open_ uri p e =
      (.ok ⟨some e.handles.length, p⟩,
       { e with
           handles := e.handles ++ [⟨parseUri uri, SQLITE_OK, 0, false⟩],
           events := e.events ++
             [⟨.openEv, e.handles.length⟩, ⟨.extcodesEv, e.handles.length⟩,
              ⟨.errcodeEv, e.handles.length⟩] }) := by
  simp only [Connection.open_, cstring_new_ok uri hn]
  simp only [sqlite3_open_v2, ho, if_true, sqlite3_extended_result_codes,
    Connection.last_error, sqlite3_errcode, hget_append_self,
    error_to_result]
  simp [List.append_assoc]

theorem open_spec_fail (uri : String) (p : Bool) (e : Engine)
    (hn : uri.data.contains (Char.ofNat 0) = false)
    (ho : e.openOk uri = false) :
    Connection.open_ uri p e =
      (.err (.sqlite SQLITE_CANTOPEN (e.errstr SQLITE_CANTOPEN)),
       { e with
           handles := e.handles ++ [⟨parseUri uri, SQLITE_CANTOPEN, 0, true⟩],
           events := e.events ++
             [⟨.openEv, e.handles.length⟩, ⟨.extcodesEv, e.handles.length⟩,
              ⟨.errcodeEv, e.handles.length⟩,
              ⟨.closeEv, e.handles.length⟩] }) := by
  simp only [Connection.open_, cstring_new_ok uri hn]
  simp only [sqlite3_open_v2, ho, Bool.false_eq_true, if_false,
    sqlite3_extended_result_codes, Connection.last_error, sqlite3_errcode,
    hget_append_self, error_to_result]
  simp [sqlite3_close, hget_append_self, hset_append_self,
    List.append_assoc, SQLITE_CANTOPEN, SQLITE_OK, SQLITE_ROW]

theorem open_ok_inv (uri : String) (p : Bool) (e : Engine) (c : Connection)
    (e1 : Engine) (h : Connection.open_ uri p e = (.ok c, e1)) :
    uri.data.contains (Char.ofNat 0) = false ∧ e.openOk uri = true ∧
    c = ⟨some e.handles.length, p⟩ ∧
    e1 = { e with
             handles := e.handles ++ [⟨parseUri uri, SQLITE_OK, 0, false⟩],
             events := e.events ++
               [⟨.openEv, e.handles.length⟩, ⟨.extcodesEv, e.handles.length⟩,
                ⟨.errcodeEv, e.handles.length⟩] } := by
  by_cases hn : uri.data.contains (Char.ofNat 0) = true
  · rw [open_nul uri p e hn] at h
    exact absurd (congrArg Prod.fst h) (by simp)
  · have hn' : uri.data.contains (Char.ofNat 0) = false := by
      simpa using hn
    by_cases ho : e.openOk uri = true
    · rw [open_spec_ok uri p e hn' ho] at h
      have h1 := congrArg Prod.fst h
      have h2 := congrArg Prod.snd h
      simp only at h1 h2
      cases h1
      exact ⟨hn', ho, rfl, h2.symm⟩
    · have ho' : e.openOk uri = false := by simpa using ho
      rw [open_spec_fail uri p e hn' ho'] at h
      exact absurd (congrArg Prod.fst h) (by simp)

/-! ## No method call issues a close: event-log extension lemmas -/

theorem noCloseExt_refl (e : Engine) : NoCloseExt e e :=
  ⟨[], by simp, by simp⟩

theorem noCloseExt_trans {e1 e2 e3 : Engine} (h1 : NoCloseExt e1 e2)
    (h2 : NoCloseExt e2 e3) : NoCloseExt e1 e3 := by
  obtain ⟨l1, hl1, hm1⟩ := h1
  obtain ⟨l2, hl2, hm2⟩ := h2
  refine ⟨l1 ++ l2, by simp [hl2, hl1], ?_⟩
  intro ev hev
  rcases List.mem_append.mp hev with h | h
  · exact hm1 ev h
  · exact hm2 ev h

theorem noCloseExt_one {e e' : Engine} (k : EvKind) (h : Nat)
    (hk : k ≠ EvKind.closeEv) (heq : e'.events = e.events ++ [⟨k, h⟩]) :
    NoCloseExt e e' := by
  refine ⟨[⟨k, h⟩], heq, ?_⟩
  intro ev hev
  rcases List.mem_singleton.mp hev with rfl
  exact hk

theorem noCloseExt_errcode (e : Engine) (h : Option Nat) :
    NoCloseExt e (sqlite3_errcode e h).2 := by
  unfold sqlite3_errcode
  split
  · exact noCloseExt_refl e
  · split
    · exact noCloseExt_refl e
    · exact noCloseExt_one .errcodeEv _ (by simp) rfl

theorem noCloseExt_last_error (c : Connection) (e : Engine) :
    NoCloseExt e (c.last_error e).2 := by
  have h := noCloseExt_errcode e c.sqlite3
  unfold Connection.last_error
  rcases hec : sqlite3_errcode e c.sqlite3 with ⟨code, e1⟩
  rw [hec] at h
  exact h

theorem noCloseExt_sqlite3_exec (e : Engine) (h : Option Nat) (q : String) :
    NoCloseExt e (sqlite3_exec e h q) := by
  unfold sqlite3_exec
  split
  · exact noCloseExt_refl e
  · split
    · exact noCloseExt_refl e
    · exact noCloseExt_one .execEv _ (by simp) rfl

theorem noCloseExt_rowid (e : Engine) (h : Option Nat) :
    NoCloseExt e (sqlite3_last_insert_rowid e h).2 := by
  unfold sqlite3_last_insert_rowid
  split
  · exact noCloseExt_refl e
  · split
    · exact noCloseExt_refl e
    · exact noCloseExt_one .rowidEv _ (by simp) rfl

theorem noCloseExt_exec (c : Connection) (q : String) (e : Engine) :
    NoCloseExt e (Connection.exec c q e).2 := by
  unfold Connection.exec
  split
  · exact noCloseExt_refl e
  · exact noCloseExt_refl e
  · rename_i curi heq
    dsimp only
    refine noCloseExt_trans (noCloseExt_sqlite3_exec e c.sqlite3 curi) ?_
    rcases hec : sqlite3_errcode (sqlite3_exec e c.sqlite3 curi) c.sqlite3
      with ⟨code, e2⟩
    have h2 := noCloseExt_errcode (sqlite3_exec e c.sqlite3 curi) c.sqlite3
    rw [hec] at h2
    exact noCloseExt_trans h2 (noCloseExt_last_error c e2)

theorem noCloseExt_insert (c : Connection) (q : String) (e : Engine) :
    NoCloseExt e (Connection.insert c q e).2 := by
  unfold Connection.insert
  rcases hex : Connection.exec c q e with ⟨r, e1⟩
  have h1 := noCloseExt_exec c q e
  rw [hex] at h1
  cases r with
  | err er => exact h1
  | panic m => exact h1
  | ok u =>
    simp only
    rcases hro : Connection.last_insert_id c e1 with ⟨id, e2⟩
    have h2 := noCloseExt_rowid e1 c.sqlite3
    rw [show Connection.last_insert_id c e1 =
      sqlite3_last_insert_rowid e1 c.sqlite3 from rfl] at hro
    rw [hro] at h2
    exact noCloseExt_trans h1 h2

theorem noCloseExt_prepare (c : Connection) (q : String) (e : Engine) :
    NoCloseExt e (Connection.prepare c q e).2 := by
  unfold Connection.prepare Statement.prepare
  split
  · exact noCloseExt_refl e
  · exact noCloseExt_refl e
  · split
    · exact noCloseExt_refl e
    · split
      · exact noCloseExt_refl e
      · dsimp only
        split
        · exact noCloseExt_one .prepareEv _ (by simp) rfl
        · exact noCloseExt_one .prepareEv _ (by simp) rfl
        · exact noCloseExt_one .prepareEv _ (by simp) rfl

theorem noCloseExt_backup_init (e : Engine) (hdst : Option Nat)
    (n1 : String) (hsrc : Option Nat) (n2 : String) :
    NoCloseExt e (sqlite3_backup_init e hdst n1 hsrc n2).2 := by
  unfold sqlite3_backup_init
  split
  · split
    · split
      · exact noCloseExt_one .backupEv _ (by simp) rfl
      · refine ⟨[⟨.backupEv, _⟩, ⟨.backupEv, _⟩], rfl, ?_⟩
        intro ev hev
        simp only [List.mem_cons, List.not_mem_nil, or_false] at hev
        rcases hev with rfl | rfl <;> simp
    · exact noCloseExt_refl e
  · exact noCloseExt_refl e

theorem noCloseExt_backup_step (e : Engine) (b : Option BackupHandle)
    (pages : Int) : NoCloseExt e (sqlite3_backup_step e b pages) := by
  unfold sqlite3_backup_step
  split
  · exact noCloseExt_refl e
  · split
    · exact noCloseExt_one .backupStepEv _ (by simp) rfl
    · exact noCloseExt_refl e

theorem noCloseExt_backup_finish (e : Engine) (b : Option BackupHandle) :
    NoCloseExt e (sqlite3_backup_finish e b) := by
  unfold sqlite3_backup_finish
  split
  · exact noCloseExt_refl e
  · exact noCloseExt_one .backupFinishEv _ (by simp) rfl

theorem noCloseExt_backup_main (c d : Connection) (e : Engine) :
    NoCloseExt e (Connection.backup_main c d e).2 := by
  unfold Connection.backup_main
  split
  · exact noCloseExt_refl e
  · exact noCloseExt_refl e
  · rename_i n1 heq1
    split
    · exact noCloseExt_refl e
    · exact noCloseExt_refl e
    · rename_i n2 heq2
      rcases hbi : sqlite3_backup_init e d.sqlite3 n1 c.sqlite3 n2
        with ⟨b, e1⟩
      have h1 := noCloseExt_backup_init e d.sqlite3 n1 c.sqlite3 n2
      rw [hbi] at h1
      exact noCloseExt_trans h1 (noCloseExt_trans
        (noCloseExt_backup_step e1 b (-1))
        (noCloseExt_trans
          (noCloseExt_backup_finish (sqlite3_backup_step e1 b (-1)) b)
          (noCloseExt_last_error d _)))

theorem noCloseExt_applyOp (c : Connection) (e : Engine) (op : ConnOp) :
    NoCloseExt e (applyOp c e op).2 := by
  cases op with
  | execOp sql => exact noCloseExt_exec c sql e
  | insertOp sql => exact noCloseExt_insert c sql e
  | prepareOp sql => exact noCloseExt_prepare c sql e
  | backupOp d => exact noCloseExt_backup_main c d e
  | persistentOp => exact noCloseExt_refl e

theorem noCloseExt_runOps (c : Connection) (e : Engine)
    (ops : List ConnOp) : NoCloseExt e (runOps c e ops).2 := by
  induction ops generalizing c e with
  | nil => exact noCloseExt_refl e
  | cons op rest ih =>
    unfold runOps
    rcases hap : applyOp c e op with ⟨c1, e1⟩
    have h1 := noCloseExt_applyOp c e op
    rw [hap] at h1
    exact noCloseExt_trans h1 (ih c1 e1)

/-! ## Method calls never remove a handle from the table -/

theorem handles_errcode (e : Engine) (h : Option Nat) :
    (sqlite3_errcode e h).2.handles = e.handles := by
  unfold sqlite3_errcode
  split
  · rfl
  · split
    · rfl
    · rfl

theorem handles_last_error (c : Connection) (e : Engine) :
    (c.last_error e).2.handles = e.handles := by
  unfold Connection.last_error
  rcases hec : sqlite3_errcode e c.sqlite3 with ⟨code, e1⟩
  have := handles_errcode e c.sqlite3
  rw [hec] at this
  exact this

theorem handles_rowid (e : Engine) (h : Option Nat) :
    (sqlite3_last_insert_rowid e h).2.handles = e.handles := by
  unfold sqlite3_last_insert_rowid
  split
  · rfl
  · split
    · rfl
    · rfl

theorem hpres_sqlite3_exec (e : Engine) (h : Option Nat) (q : String)
    (m : Nat) : (hget (sqlite3_exec e h q).handles m).isSome =
      (hget e.handles m).isSome := by
  unfold sqlite3_exec
  split
  · rfl
  · split
    · rfl
    · exact hget_hset_isSome e.handles _ m _

theorem hpres_exec (c : Connection) (q : String) (e : Engine) (m : Nat) :
    (hget (Connection.exec c q e).2.handles m).isSome =
      (hget e.handles m).isSome := by
  unfold Connection.exec
  split
  · rfl
  · rfl
  · rename_i curi heq
    dsimp only
    rcases hec : sqlite3_errcode (sqlite3_exec e c.sqlite3 curi) c.sqlite3
      with ⟨code, e2⟩
    have h2 := handles_errcode (sqlite3_exec e c.sqlite3 curi) c.sqlite3
    rw [hec] at h2
    rw [handles_last_error c e2, h2]
    exact hpres_sqlite3_exec e c.sqlite3 curi m

theorem hpres_insert (c : Connection) (q : String) (e : Engine) (m : Nat) :
    (hget (Connection.insert c q e).2.handles m).isSome =
      (hget e.handles m).isSome := by
  unfold Connection.insert
  rcases hex : Connection.exec c q e with ⟨r, e1⟩
  have h1 := hpres_exec c q e m
  rw [hex] at h1
  cases r with
  | err er => exact h1
  | panic msg => exact h1
  | ok u =>
    dsimp only
    rcases hro : Connection.last_insert_id c e1 with ⟨id, e2⟩
    have h2 := handles_rowid e1 c.sqlite3
    rw [show Connection.last_insert_id c e1 =
      sqlite3_last_insert_rowid e1 c.sqlite3 from rfl] at hro
    rw [hro] at h2
    rw [h2]
    exact h1

theorem hpres_prepare (c : Connection) (q : String) (e : Engine) (m : Nat) :
    (hget (Connection.prepare c q e).2.handles m).isSome =
      (hget e.handles m).isSome := by
  unfold Connection.prepare Statement.prepare
  split
  · rfl
  · rfl
  · split
    · rfl
    · split
      · rfl
      · dsimp only
        split
        · exact hget_hset_isSome e.handles _ m _
        · exact hget_hset_isSome e.handles _ m _
        · exact hget_hset_isSome e.handles _ m _

theorem hpres_backup_init (e : Engine) (hdst : Option Nat) (n1 : String)
    (hsrc : Option Nat) (n2 : String) (m : Nat) :
    (hget (sqlite3_backup_init e hdst n1 hsrc n2).2.handles m).isSome =
      (hget e.handles m).isSome := by
  unfold sqlite3_backup_init
  split
  · split
    · split
      · exact hget_hset_isSome e.handles _ m _
      · rfl
    · rfl
  · rfl

theorem hpres_backup_step (e : Engine) (b : Option BackupHandle)
    (pages : Int) (m : Nat) :
    (hget (sqlite3_backup_step e b pages).handles m).isSome =
      (hget e.handles m).isSome := by
  unfold sqlite3_backup_step
  split
  · rfl
  · split
    · exact hget_hset_isSome e.handles _ m _
    · rfl

theorem handles_backup_finish (e : Engine) (b : Option BackupHandle) :
    (sqlite3_backup_finish e b).handles = e.handles := by
  unfold sqlite3_backup_finish
  split
  · rfl
  · rfl

theorem hpres_backup_main (c d : Connection) (e : Engine) (m : Nat) :
    (hget (Connection.backup_main c d e).2.handles m).isSome =
      (hget e.handles m).isSome := by
  unfold Connection.backup_main
  split
  · rfl
  · rfl
  · rename_i n1 heq1
    split
    · rfl
    · rfl
    · rename_i n2 heq2
      rcases hbi : sqlite3_backup_init e d.sqlite3 n1 c.sqlite3 n2
        with ⟨b, e1⟩
      have h1 := hpres_backup_init e d.sqlite3 n1 c.sqlite3 n2 m
      rw [hbi] at h1
      dsimp only
      rw [handles_last_error d _, handles_backup_finish _ b]
      rw [hpres_backup_step e1 b (-1) m]
      exact h1

theorem hpres_applyOp (c : Connection) (e : Engine) (op : ConnOp) (m : Nat) :
    (hget (applyOp c e op).2.handles m).isSome =
      (hget e.handles m).isSome := by
  cases op with
  | execOp sql => exact hpres_exec c sql e m
  | insertOp sql => exact hpres_insert c sql e m
  | prepareOp sql => exact hpres_prepare c sql e m
  | backupOp d => exact hpres_backup_main c d e m
  | persistentOp => rfl

theorem hpres_runOps (c : Connection) (e : Engine) (ops : List ConnOp)
    (m : Nat) : (hget (runOps c e ops).2.handles m).isSome =
      (hget e.handles m).isSome := by
  induction ops generalizing c e with
  | nil => rfl
  | cons op rest ih =>
    unfold runOps
    rcases hap : applyOp c e op with ⟨c1, e1⟩
    have h1 := hpres_applyOp c e op m
    rw [hap] at h1
    rw [ih c1 e1]
    exact h1

/-! ## `runOps` leaves the connection value unchanged -/

theorem applyOp_fst (c : Connection) (e : Engine) (op : ConnOp) :
    (applyOp c e op).1 = c := by
  cases op <;> rfl

theorem runOps_fst (c : Connection) (e : Engine) (ops : List ConnOp) :
    (runOps c e ops).1 = c := by
  induction ops generalizing c e with
  | nil => rfl
  | cons op rest ih =>
    unfold runOps
    rcases hap : applyOp c e op with ⟨c1, e1⟩
    have h1 := applyOp_fst c e op
    rw [hap] at h1
    rw [ih c1 e1]
    exact h1

/-! ## Full characterizations of `exec` and `backup_main` -/

theorem exec_nul (c : Connection) (q : String) (e : Engine)
    (hn : q.data.contains (Char.ofNat 0) = true) :
    Connection.exec c q e = (.err .nulError, e) := by
  simp only [Connection.exec, cstring_new_nul q hn]

theorem exec_nullHandle (c : Connection) (q : String) (e : Engine)
    (hn : q.data.contains (Char.ofNat 0) = false)
    (hc : c.sqlite3 = none) :
    Connection.exec c q e =
      (.err (.sqlite SQLITE_MISUSE (e.errstr SQLITE_MISUSE)), e) := by
  simp only [Connection.exec, cstring_new_ok q hn, hc, sqlite3_exec,
    sqlite3_errcode, Connection.last_error]
  simp [error_to_result, SQLITE_MISUSE, SQLITE_OK, SQLITE_ROW]

theorem exec_badHandle (c : Connection) (q : String) (e : Engine) (h : Nat)
    (hn : q.data.contains (Char.ofNat 0) = false)
    (hc : c.sqlite3 = some h) (hh : hget e.handles h = none) :
    Connection.exec c q e =
      (.err (.sqlite SQLITE_MISUSE (e.errstr SQLITE_MISUSE)), e) := by
  simp only [Connection.exec, cstring_new_ok q hn, hc, sqlite3_exec,
    sqlite3_errcode, Connection.last_error, hh]
  simp [error_to_result, SQLITE_MISUSE, SQLITE_OK, SQLITE_ROW]

theorem errcode_known (e : Engine) (h : Nat) (hs : HandleState)
    (hh : hget e.handles h = some hs) :
    sqlite3_errcode e (some h) =
      (hs.errcode, { e with events := e.events ++ [⟨.errcodeEv, h⟩] }) := by
  simp [sqlite3_errcode, hh]

theorem last_error_known (c : Connection) (e : Engine) (h : Nat)
    (hs : HandleState) (hc : c.sqlite3 = some h)
    (hh : hget e.handles h = some hs) :
    c.last_error e = (error_to_result e.errstr hs.errcode,
      { e with events := e.events ++ [⟨.errcodeEv, h⟩] }) := by
  simp only [Connection.last_error, hc, errcode_known e h hs hh]

theorem exec_model (c : Connection) (q : String) (e : Engine) (h : Nat)
    (hs : HandleState) (hn : q.data.contains (Char.ofNat 0) = false)
    (hc : c.sqlite3 = some h) (hh : hget e.handles h = some hs) :
    Connection.exec c q e =
      (error_to_result e.errstr (e.execSem q (getStore e.stores hs.db)).code,
       { e with
           stores := setStore e.stores hs.db
             (e.execSem q (getStore e.stores hs.db)).newStore,
           handles := hset e.handles h
             { hs with
                 errcode := (e.execSem q (getStore e.stores hs.db)).code,
                 lastInsertRowid := (e.execSem q
                   (getStore e.stores hs.db)).newRowid.getD
                     hs.lastInsertRowid },
           events := e.events ++
             [⟨.execEv, h⟩, ⟨.errcodeEv, h⟩, ⟨.errcodeEv, h⟩] }) := by
  have hx : sqlite3_exec e c.sqlite3 q =
      { e with
          stores := setStore e.stores hs.db
            (e.execSem q (getStore e.stores hs.db)).newStore,
          handles := hset e.handles h
            { hs with
                errcode := (e.execSem q (getStore e.stores hs.db)).code,
                lastInsertRowid := (e.execSem q
                  (getStore e.stores hs.db)).newRowid.getD
                    hs.lastInsertRowid },
          events := e.events ++ [⟨.execEv, h⟩] } := by
    simp [sqlite3_exec, hc, hh]
  have h1 : hget (sqlite3_exec e c.sqlite3 q).handles h =
      some { hs with
               errcode := (e.execSem q (getStore e.stores hs.db)).code,
               lastInsertRowid := (e.execSem q
                 (getStore e.stores hs.db)).newRowid.getD
                   hs.lastInsertRowid } := by
    rw [hx]
    exact hget_hset_self e.handles h _ hs hh
  rw [hc] at hx h1
  have h2 := errcode_known (sqlite3_exec e (some h) q) h _ h1
  simp only [Connection.exec, cstring_new_ok q hn]
  rw [hc]
  rw [h2]
  dsimp only
  have h1b : hget ({ sqlite3_exec e (some h) q with
      events := (sqlite3_exec e (some h) q).events ++
        [⟨EvKind.errcodeEv, h⟩] } : Engine).handles h =
      some { hs with
               errcode := (e.execSem q (getStore e.stores hs.db)).code,
               lastInsertRowid := (e.execSem q
                 (getStore e.stores hs.db)).newRowid.getD
                   hs.lastInsertRowid } := h1
  rw [last_error_known c _ h _ hc h1b]
  rw [hx]
  simp [List.append_assoc]

theorem backup_model (c d : Connection) (e : Engine) (hsrc hdst : Nat)
    (sSt dSt : HandleState)
    (hcs : c.sqlite3 = some hsrc) (hcd : d.sqlite3 = some hdst)
    (hgs : hget e.handles hsrc = some sSt)
    (hgd : hget e.handles hdst = some dSt)
    (hne : dSt.db ≠ sSt.db) :
    Connection.backup_main c d e =
      (.ok (),
       { e with
           stores := setStore e.stores dSt.db (getStore e.stores sSt.db),
           handles := hset e.handles hdst { dSt with errcode := SQLITE_OK },
           events := e.events ++
             [⟨.backupEv, hdst⟩, ⟨.backupEv, hsrc⟩, ⟨.backupStepEv, hdst⟩,
              ⟨.backupFinishEv, hdst⟩, ⟨.errcodeEv, hdst⟩] }) := by
  have hm : cstring_new "main" = .ok "main" := cstring_new_ok "main" (by decide)
  simp only [Connection.backup_main, hm]
  simp only [sqlite3_backup_init, hcd, hcs, hgd, hgs, if_neg hne]
  simp only [sqlite3_backup_step, hgd, hgs]
  simp only [sqlite3_backup_finish, Connection.last_error, sqlite3_errcode,
    hcd]
  rw [hget_hset_self e.handles hdst _ dSt hgd]
  simp [error_to_result, List.append_assoc]

/-! ## The shared in-memory URI -/

theorem isMemUri_append (name : String) :
    isMemUri ("file:" ++ name ++ "?mode=memory&cache=shared") = true := by
  unfold isMemUri
  rw [String.data_append, String.data_append, Bool.and_eq_true]
  constructor
  · rw [List.append_assoc]
    exact List.isPrefixOf_iff_prefix.mpr (List.prefix_append _ _)
  · exact List.isSuffixOf_iff_suffix.mpr (List.suffix_append _ _)

theorem parseUri_mem (name : String) :
    parseUri ("file:" ++ name ++ "?mode=memory&cache=shared") =
      .mem ("file:" ++ name ++ "?mode=memory&cache=shared") := by
  simp [parseUri, isMemUri_append]

/-! ## Dropping a connection after a run of method calls -/

theorem drop_after_runOps (h : Nat) (p : Bool) (e1 : Engine)
    (ops : List ConnOp) (hh : (hget e1.handles h).isSome = true) :
    ∃ l, (Connection.drop (runOps ⟨some h, p⟩ e1 ops).1
        (runOps ⟨some h, p⟩ e1 ops).2).events =
          (e1.events ++ l) ++ [⟨EvKind.closeEv, h⟩] ∧
      ∀ ev ∈ l, ev.kind ≠ EvKind.closeEv := by
  rcases hro : runOps ⟨some h, p⟩ e1 ops with ⟨c2, e2⟩
  have hc2 := runOps_fst ⟨some h, p⟩ e1 ops
  rw [hro] at hc2
  have hiso := hpres_runOps ⟨some h, p⟩ e1 ops h
  rw [hro] at hiso
  rw [hh] at hiso
  obtain ⟨hs2, hhs2⟩ := Option.isSome_iff_exists.mp hiso
  have hnc := noCloseExt_runOps ⟨some h, p⟩ e1 ops
  rw [hro] at hnc
  obtain ⟨l, hl, hml⟩ := hnc
  refine ⟨l, ?_, hml⟩
  rw [hc2]
  unfold Connection.drop sqlite3_close
  dsimp only
  rw [hhs2]
  dsimp only
  rw [hl]

/-! ## More helper facts -/

theorem cstring_new_not_panic (s : String) (m : String) :
    cstring_new s ≠ .panic m := by
  intro h
  unfold cstring_new at h
  split at h <;> simp at h

theorem error_to_result_not_panic (f : Int → Option String) (code : Int) :
    (error_to_result f code).isPanic = false := by
  unfold error_to_result
  split <;> rfl

theorem last_error_fst_not_panic (c : Connection) (e : Engine) :
    (c.last_error e).1.isPanic = false := by
  unfold Connection.last_error
  rcases hec : sqlite3_errcode e c.sqlite3 with ⟨code, e1⟩
  exact error_to_result_not_panic e1.errstr code

theorem rowid_known (e : Engine) (h : Nat) (hs : HandleState)
    (hh : hget e.handles h = some hs) :
    sqlite3_last_insert_rowid e (some h) =
      (hs.lastInsertRowid,
       { e with events := e.events ++ [⟨.rowidEv, h⟩] }) := by
  simp [sqlite3_last_insert_rowid, hh]

theorem twoDbEngine_wf : EngineWF twoDbEngine := by
  constructor
  · intro hs hmem
    simp [twoDbEngine, okEngine] at hmem
    rcases hmem with rfl | rfl <;> exact ⟨by norm_num, by norm_num⟩
  · intro sql st r hr
    simp [twoDbEngine, okEngine] at hr
    rw [← hr]
    exact ⟨by norm_num, by norm_num⟩

/-! ## The claims -/

/-- C2: the error-mapping function `error_to_result` treats exactly
`SQLITE_OK` and `SQLITE_ROW` as non-errors: for every other status code it
returns an error value carrying the numeric code and the engine-supplied
message (recording the absence of a message as `none` rather than dropping
the error), and for `SQLITE_OK` or `SQLITE_ROW` it returns success. -/
theorem claim_C2_error_mapping (errstr : Int → Option String) (code : Int) :
    (error_to_result errstr code = .ok () ↔
      code = SQLITE_OK ∨ code = SQLITE_ROW) ∧
    (code ≠ SQLITE_OK → code ≠ SQLITE_ROW →
      error_to_result errstr code = .err (.sqlite code (errstr code))) := by
  constructor
  · constructor
    · intro h
      by_cases h1 : code = SQLITE_OK
      · exact Or.inl h1
      · by_cases h2 : code = SQLITE_ROW
        · exact Or.inr h2
        · rw [error_to_result_errCode errstr code h1 h2] at h
          simp at h
    · intro h
      rcases h with rfl | rfl
      · exact error_to_result_okCode errstr
      · exact error_to_result_rowCode errstr
  · exact error_to_result_errCode errstr code

/-- Witness for C2 at the concrete codes 14 (`SQLITE_CANTOPEN`) and 0
(`SQLITE_OK`) with a NULL message table. -/
theorem claim_C2_witness :
    error_to_result (fun _ => none) 14 = .err (.sqlite 14 none) ∧
    error_to_result (fun _ => none) 0 = .ok () :=
  ⟨(claim_C2_error_mapping (fun _ => none) 14).2 (by decide) (by decide),
   (claim_C2_error_mapping (fun _ => none) 0).1.mpr (Or.inl rfl)⟩

/-- C10: for every query string containing an interior NUL byte, `exec`
(and therefore `insert`) returns the C-string conversion error before any
call into the native engine is made, leaving the connection's and engine's
state unchanged. -/
theorem claim_C10_nul_query (c : Connection) (q : String) (e : Engine)
    (hn : q.data.contains (Char.ofNat 0) = true) :
    Connection.exec c q e = (.err .nulError, e) ∧
    Connection.insert c q e = (.err .nulError, e) := by
  have hx := exec_nul c q e hn
  refine ⟨hx, ?_⟩
  unfold Connection.insert
  rw [hx]

/-- Witness for C10 at a concrete query with an interior NUL byte. -/
theorem claim_C10_witness :
    Connection.exec connA "a\x00b" twoDbEngine =
      (.err .nulError, twoDbEngine) ∧
    Connection.insert connA "a\x00b" twoDbEngine =
      (.err .nulError, twoDbEngine) :=
  claim_C10_nul_query connA "a\x00b" twoDbEngine (by decide)

/-- C3: `insert` first performs `exec`; if `exec` fails the same error is
returned with the same engine state, otherwise `insert` returns the
engine's last-inserted row identifier for this connection, which under
engine well-formedness is a 64-bit signed integer. -/
theorem claim_C3_insert (c : Connection) (q : String) (e : Engine) :
    (∀ er, (Connection.exec c q e).1 = .err er →
      Connection.insert c q e = (.err er, (Connection.exec c q e).2)) ∧
    ((Connection.exec c q e).1 = .ok () →
      Connection.insert c q e =
        (.ok (Connection.last_insert_id c (Connection.exec c q e).2).1,
         (Connection.last_insert_id c (Connection.exec c q e).2).2)) ∧
    (EngineWF e → ∀ n, (Connection.insert c q e).1 = .ok n →
      i64Range n) := by
  refine ⟨?_, ?_, ?_⟩
  · intro er her
    unfold Connection.insert
    rcases hex : Connection.exec c q e with ⟨r, e1⟩
    rw [hex] at her
    cases r with
    | ok u => simp at her
    | panic m => simp at her
    | err er2 =>
      dsimp only at her
      injection her with h2
      subst h2
      rfl
  · intro hok
    unfold Connection.insert
    rcases hex : Connection.exec c q e with ⟨r, e1⟩
    rw [hex] at hok
    cases r with
    | err er2 => simp at hok
    | panic m => simp at hok
    | ok u =>
      cases u
      dsimp only
  · intro hwf n hins
    by_cases hq : q.data.contains (Char.ofNat 0) = true
    · have : Connection.insert c q e = (.err .nulError, e) := by
        unfold Connection.insert
        rw [exec_nul c q e hq]
      rw [this] at hins
      simp at hins
    · have hq' : q.data.contains (Char.ofNat 0) = false := by simpa using hq
      cases hc : c.sqlite3 with
      | none =>
        have : Connection.insert c q e =
            (.err (.sqlite SQLITE_MISUSE (e.errstr SQLITE_MISUSE)), e) := by
          unfold Connection.insert
          rw [exec_nullHandle c q e hq' hc]
        rw [this] at hins
        simp at hins
      | some h =>
        cases hh : hget e.handles h with
        | none =>
          have : Connection.insert c q e =
              (.err (.sqlite SQLITE_MISUSE (e.errstr SQLITE_MISUSE)), e) := by
            unfold Connection.insert
            rw [exec_badHandle c q e h hq' hc hh]
          rw [this] at hins
          simp at hins
        | some hs =>
          have hx := exec_model c q e h hs hq' hc hh
          unfold Connection.insert at hins
          rw [hx] at hins
          rcases her : error_to_result e.errstr
              (e.execSem q (getStore e.stores hs.db)).code with u | er | m
          · rw [her] at hins
            cases u
            dsimp only at hins
            rw [Connection.last_insert_id, hc] at hins
            rw [rowid_known _ h
              { hs with
                  errcode := (e.execSem q (getStore e.stores hs.db)).code,
                  lastInsertRowid := (e.execSem q
                    (getStore e.stores hs.db)).newRowid.getD
                      hs.lastInsertRowid }
              (by exact hget_hset_self e.handles h _ hs hh)] at hins
            dsimp only at hins
            injection hins with h3
            subst h3
            cases hrow : (e.execSem q (getStore e.stores hs.db)).newRowid with
            | some r =>
              rw [Option.getD_some]
              exact hwf.execRowidInRange q (getStore e.stores hs.db) r hrow
            | none =>
              rw [Option.getD_none]
              exact hwf.rowidsInRange hs (hget_mem e.handles h hs hh)
          · rw [her] at hins
            simp at hins
          · have := error_to_result_not_panic e.errstr
              (e.execSem q (getStore e.stores hs.db)).code
            rw [her] at this
            simp [Outcome.isPanic] at this

/-- Witness for C3 on a concrete engine where `exec` succeeds and the
last-insert rowid becomes 1. -/
theorem claim_C3_witness :
    Connection.insert connA "INSERT" twoDbEngine =
      (.ok (Connection.last_insert_id connA
          (Connection.exec connA "INSERT" twoDbEngine).2).1,
       (Connection.last_insert_id connA
          (Connection.exec connA "INSERT" twoDbEngine).2).2) ∧
    i64Range 1 :=
  ⟨(claim_C3_insert connA "INSERT" twoDbEngine).2.1 (by decide),
   (claim_C3_insert connA "INSERT" twoDbEngine).2.2 twoDbEngine_wf 1
     (by decide)⟩

/-! ## Helpers about `open_memory` and `open_file` results -/

theorem open_memory_not_err (uri : String) (e : Engine) :
    (Connection.open_memory uri e).1.isErr = false := by
  unfold Connection.open_memory
  dsimp only
  rcases hop : Connection.open_
      ("file:" ++ uri ++ "?mode=memory&cache=shared") false e with ⟨r, e1⟩
  cases r <;> rfl

theorem open_memory_ok_inv_full (uri : String) (e : Engine)
    (c : Connection) (e' : Engine)
    (h : Connection.open_memory uri e = (.ok c, e')) :
    Connection.open_ ("file:" ++ uri ++ "?mode=memory&cache=shared") false e
      = (.ok c, e') := by
  unfold Connection.open_memory at h
  dsimp only at h
  rcases hop : Connection.open_
      ("file:" ++ uri ++ "?mode=memory&cache=shared") false e with ⟨r, e3⟩
  rw [hop] at h
  cases r with
  | ok c3 =>
    dsimp only at h
    rw [Prod.mk.injEq] at h
    obtain ⟨h1, h2⟩ := h
    injection h1 with h1
    rw [h1, h2]
  | err er => simp at h
  | panic m => simp at h

theorem open_fst_persistent (uri : String) (p : Bool) (e : Engine)
    (c : Connection) (hc : (Connection.open_ uri p e).1 = .ok c) :
    c.persistent = p := by
  rcases hop : Connection.open_ uri p e with ⟨r, e1⟩
  rw [hop] at hc
  dsimp only at hc
  subst hc
  obtain ⟨_, _, hceq, _⟩ := open_ok_inv uri p e c e1 hop
  rw [hceq]

theorem open_memory_fst_ok_inv (uri : String) (e : Engine) (c : Connection)
    (hc : (Connection.open_memory uri e).1 = .ok c) :
    (Connection.open_ ("file:" ++ uri ++ "?mode=memory&cache=shared") false
      e).1 = .ok c := by
  unfold Connection.open_memory at hc
  dsimp only at hc
  rcases hop : Connection.open_
      ("file:" ++ uri ++ "?mode=memory&cache=shared") false e with ⟨r, e1⟩
  rw [hop] at hc
  cases r with
  | ok c3 => exact hc
  | err er => simp at hc
  | panic m => simp at hc

/-- C1: `open_file` never propagates an error: when the persistent
file-backed open succeeds its connection is returned, and when it fails
`open_file` returns exactly the result of `open_memory` on the same
identifier, discarding the original open error; the result is never an
error value. -/
theorem claim_C1_open_file (uri : String) (e : Engine) :
    (∀ c, (Connection.open_ uri true e).1 = .ok c →
      Connection.open_file uri e =
        (.ok c, (Connection.open_ uri true e).2)) ∧
    (∀ er, (Connection.open_ uri true e).1 = .err er →
      Connection.open_file uri e =
        Connection.open_memory uri (Connection.open_ uri true e).2) ∧
    (Connection.open_file uri e).1.isErr = false := by
  refine ⟨?_, ?_, ?_⟩
  · intro c hc
    unfold Connection.open_file
    rcases hop : Connection.open_ uri true e with ⟨r, e1⟩
    rw [hop] at hc
    dsimp only at hc
    subst hc
    rfl
  · intro er her
    unfold Connection.open_file
    rcases hop : Connection.open_ uri true e with ⟨r, e1⟩
    rw [hop] at her
    dsimp only at her
    subst her
    rfl
  · unfold Connection.open_file
    rcases hop : Connection.open_ uri true e with ⟨r, e1⟩
    cases r with
    | ok c => rfl
    | err er => exact open_memory_not_err uri e1
    | panic m => rfl

/-- Witness for C1 on an engine whose filesystem is unavailable: the file
open fails with `SQLITE_CANTOPEN` and `open_file` returns exactly the
result of `open_memory`. -/
theorem claim_C1_witness :
    (Connection.open_ "db" true noFsEngine).1 =
      .err (.sqlite SQLITE_CANTOPEN none) ∧
    Connection.open_file "db" noFsEngine =
      Connection.open_memory "db" (Connection.open_ "db" true noFsEngine).2 :=
  ⟨by decide,
   (claim_C1_open_file "db" noFsEngine).2.1 (.sqlite SQLITE_CANTOPEN none)
     (by decide)⟩

/-- C4: `persistent` reports which open path produced the Connection: true
when it came from a successful file-backed open, false when it came from
`open_memory` (including the in-memory fallback taken by `open_file`), and
the value is unchanged by any sequence of method calls over the
connection's lifetime. -/
theorem claim_C4_persistent (uri name : String) (e : Engine) :
    (∀ c, (Connection.open_ uri true e).1 = .ok c →
      (Connection.open_file uri e).1 = .ok c ∧ c.persistent = true) ∧
    (∀ c, (Connection.open_memory name e).1 = .ok c →
      c.persistent = false) ∧
    (∀ er c, (Connection.open_ uri true e).1 = .err er →
      (Connection.open_file uri e).1 = .ok c → c.persistent = false) ∧
    (∀ (c : Connection) (ops : List ConnOp) (e1 : Engine),
      ((runOps c e1 ops).1).persistent = c.persistent) := by
  refine ⟨?_, ?_, ?_, ?_⟩
  · intro c hc
    constructor
    · unfold Connection.open_file
      rcases hop : Connection.open_ uri true e with ⟨r, e1⟩
      rw [hop] at hc
      dsimp only at hc
      subst hc
      rfl
    · exact open_fst_persistent uri true e c hc
  · intro c hc
    exact open_fst_persistent _ false e c (open_memory_fst_ok_inv name e c hc)
  · intro er c her hc
    unfold Connection.open_file at hc
    rcases hop : Connection.open_ uri true e with ⟨r, e1⟩
    rw [hop] at her hc
    dsimp only at her
    subst her
    dsimp only at hc
    exact open_fst_persistent _ false e1 c (open_memory_fst_ok_inv uri e1 c hc)
  · intro c ops e1
    rw [runOps_fst c e1 ops]

/-- Witness for C4: a successful file-backed open yields `persistent =
true`; a fallback taken on an engine without a filesystem yields
`persistent = false`. -/
theorem claim_C4_witness :
    ((Connection.open_file "db" okEngine).1 = .ok ⟨some 0, true⟩ ∧
      (⟨some 0, true⟩ : Connection).persistent = true) ∧
    (⟨some 1, false⟩ : Connection).persistent = false :=
  ⟨(claim_C4_persistent "db" "m" okEngine).1 ⟨some 0, true⟩ (by decide),
   (claim_C4_persistent "db" "m" noFsEngine).2.2.1
     (.sqlite SQLITE_CANTOPEN none) ⟨some 1, false⟩ (by decide) (by decide)⟩

/-- C9: the persistent flag is set exactly once at construction (`open`
stores the flag of the open path that was taken) and no subsequent method
call or error path ever changes the connection value, so `persistent`
returns the same value for the connection's entire lifetime. -/
theorem claim_C9_persistent_immutable (uri : String) (p : Bool)
    (e e1 : Engine) (c : Connection) (ops : List ConnOp) :
    (Connection.open_ uri p e = (.ok c, e1) → c.persistent = p) ∧
    (runOps c e1 ops).1 = c := by
  constructor
  · intro h
    obtain ⟨_, _, hceq, _⟩ := open_ok_inv uri p e c e1 h
    rw [hceq]
  · exact runOps_fst c e1 ops

/-- Witness for C9 on a concrete lifetime. -/
theorem claim_C9_witness :
    (⟨some 0, true⟩ : Connection).persistent = true ∧
    (runOps ⟨some 0, true⟩ okEngine
      [ConnOp.execOp "x", ConnOp.persistentOp]).1 = ⟨some 0, true⟩ :=
  ⟨(claim_C9_persistent_immutable "db" true okEngine
      (Connection.open_ "db" true okEngine).2 ⟨some 0, true⟩ []).1
      (Prod.ext (by decide) rfl),
   (claim_C9_persistent_immutable "db" true okEngine okEngine ⟨some 0, true⟩
      [ConnOp.execOp "x", ConnOp.persistentOp]).2⟩

/-- C6: `open_memory name` opens a named, shared, memory-resident store via
the URI `file:` + name + `?mode=memory&cache=shared` with shared-cache
semantics: two connections opened with the same name reference the same
in-memory database, hence observe the same data. -/
theorem claim_C6_open_memory_shared (name : String) (e e1 e2 : Engine)
    (c1 c2 : Connection)
    (h1 : Connection.open_memory name e = (.ok c1, e1))
    (h2 : Connection.open_memory name e1 = (.ok c2, e2)) :
    ∃ i1 i2 st1 st2,
      c1.sqlite3 = some i1 ∧ c2.sqlite3 = some i2 ∧
      hget e2.handles i1 = some st1 ∧ hget e2.handles i2 = some st2 ∧
      st1.db = DbRef.mem ("file:" ++ name ++ "?mode=memory&cache=shared") ∧
      st2.db = st1.db := by
  have g1 := open_memory_ok_inv_full name e c1 e1 h1
  have g2 := open_memory_ok_inv_full name e1 c2 e2 h2
  obtain ⟨_, _, hc1, he1⟩ := open_ok_inv _ _ _ _ _ g1
  obtain ⟨_, _, hc2, he2⟩ := open_ok_inv _ _ _ _ _ g2
  have hh1 : e1.handles = e.handles ++
      [⟨parseUri ("file:" ++ name ++ "?mode=memory&cache=shared"),
        SQLITE_OK, 0, false⟩] := by
    rw [he1]
  have hh2 : e2.handles = e1.handles ++
      [⟨parseUri ("file:" ++ name ++ "?mode=memory&cache=shared"),
        SQLITE_OK, 0, false⟩] := by
    rw [he2]
  refine ⟨e.handles.length, e1.handles.length,
    ⟨parseUri ("file:" ++ name ++ "?mode=memory&cache=shared"),
      SQLITE_OK, 0, false⟩,
    ⟨parseUri ("file:" ++ name ++ "?mode=memory&cache=shared"),
      SQLITE_OK, 0, false⟩, ?_, ?_, ?_, ?_, ?_, rfl⟩
  · rw [hc1]
  · rw [hc2]
  · rw [hh2, hh1]
    rw [hget_append_left]
    · exact hget_append_self e.handles _
    · simp
  · rw [hh2]
    exact hget_append_self e1.handles _
  · exact parseUri_mem name

/-- Witness for C6: two `open_memory "m"` calls in sequence on a fresh
engine. -/
theorem claim_C6_witness :
    ∃ i1 i2 st1 st2,
      (⟨some 0, false⟩ : Connection).sqlite3 = some i1 ∧
      (⟨some 1, false⟩ : Connection).sqlite3 = some i2 ∧
      hget memE2.handles i1 = some st1 ∧ hget memE2.handles i2 = some st2 ∧
      st1.db = DbRef.mem ("file:" ++ "m" ++ "?mode=memory&cache=shared") ∧
      st2.db = st1.db :=
  claim_C6_open_memory_shared "m" okEngine memE1 memE2
    ⟨some 0, false⟩ ⟨some 1, false⟩ rfl rfl

/-! ## Helpers: no public operation panics -/

theorem exec_fst_not_panic (c : Connection) (q : String) (e : Engine) :
    (Connection.exec c q e).1.isPanic = false := by
  unfold Connection.exec
  split
  · rfl
  · rename_i m heq
    exact absurd heq (cstring_new_not_panic q m)
  · rename_i curi heq
    dsimp only
    rcases hec : sqlite3_errcode (sqlite3_exec e c.sqlite3 curi) c.sqlite3
      with ⟨code, e2⟩
    exact last_error_fst_not_panic c e2

theorem insert_fst_not_panic (c : Connection) (q : String) (e : Engine) :
    (Connection.insert c q e).1.isPanic = false := by
  unfold Connection.insert
  rcases hex : Connection.exec c q e with ⟨r, e1⟩
  have hr := exec_fst_not_panic c q e
  rw [hex] at hr
  cases r with
  | err er => rfl
  | panic m => exact hr
  | ok u =>
    dsimp only
    rcases hro : Connection.last_insert_id c e1 with ⟨id, e2⟩
    rfl

theorem backup_fst_not_panic (c d : Connection) (e : Engine) :
    (Connection.backup_main c d e).1.isPanic = false := by
  unfold Connection.backup_main
  split
  · rfl
  · rename_i m heq
    exact absurd heq (cstring_new_not_panic "main" m)
  · split
    · rfl
    · rename_i m heq
      simp at heq
    · rename_i n2 heq2
      rcases hbi : sqlite3_backup_init e d.sqlite3 _ c.sqlite3 n2
        with ⟨b, e1⟩
      dsimp only
      exact last_error_fst_not_panic d _

theorem prepare_fst_not_panic (c : Connection) (q : String) (e : Engine) :
    (Connection.prepare c q e).1.isPanic = false := by
  unfold Connection.prepare Statement.prepare
  split
  · rfl
  · rename_i m heq
    exact absurd heq (cstring_new_not_panic q m)
  · rename_i curi heq
    split
    · rfl
    · split
      · rfl
      · dsimp only
        split
        · rfl
        · rfl
        · rename_i m heq2
          have hnp := error_to_result_not_panic e.errstr (e.prepOk curi)
          rw [heq2] at hnp
          simp [Outcome.isPanic] at hnp

theorem open_fst_not_panic (uri : String) (p : Bool) (e : Engine) :
    (Connection.open_ uri p e).1.isPanic = false := by
  by_cases hn : uri.data.contains (Char.ofNat 0) = true
  · rw [open_nul uri p e hn]
    rfl
  · have hn' : uri.data.contains (Char.ofNat 0) = false := by simpa using hn
    by_cases ho : e.openOk uri = true
    · rw [open_spec_ok uri p e hn' ho]
      rfl
    · rw [open_spec_fail uri p e hn' (by simpa using ho)]
      rfl

/-- C8: no public Connection operation panics on ordinary data or engine
errors — `exec`, `insert`, `backup_main`, `prepare` and `open` always
return `Ok` or `Err`; the only panic at this interface is `open_memory`
failing to open the in-memory store, and `open_file` can only panic through
that `open_memory` call. -/
theorem claim_C8_no_panics (c d : Connection) (q uri name : String)
    (p : Bool) (e : Engine) :
    (Connection.exec c q e).1.isPanic = false ∧
    (Connection.insert c q e).1.isPanic = false ∧
    (Connection.backup_main c d e).1.isPanic = false ∧
    (Connection.prepare c q e).1.isPanic = false ∧
    (Connection.open_ uri p e).1.isPanic = false ∧
    ((Connection.open_memory name e).1.isPanic = true ↔
      (Connection.open_ ("file:" ++ name ++ "?mode=memory&cache=shared")
        false e).1.isErr = true) ∧
    (∀ m, (Connection.open_file uri e).1 = .panic m →
      (Connection.open_memory uri
        (Connection.open_ uri true e).2).1 = .panic m) := by
  refine ⟨exec_fst_not_panic c q e, insert_fst_not_panic c q e,
    backup_fst_not_panic c d e, prepare_fst_not_panic c q e,
    open_fst_not_panic uri p e, ?_, ?_⟩
  · unfold Connection.open_memory
    dsimp only
    rcases hop : Connection.open_
        ("file:" ++ name ++ "?mode=memory&cache=shared") false e
      with ⟨r, e1⟩
    have hnp := open_fst_not_panic
      ("file:" ++ name ++ "?mode=memory&cache=shared") false e
    rw [hop] at hnp
    cases r with
    | ok c1 => simp [Outcome.isPanic, Outcome.isErr]
    | err er => simp [Outcome.isPanic, Outcome.isErr]
    | panic m => simp [Outcome.isPanic] at hnp
  · intro m hm
    unfold Connection.open_file at hm
    rcases hop : Connection.open_ uri true e with ⟨r, e1⟩
    have hnp := open_fst_not_panic uri true e
    rw [hop] at hnp hm
    cases r with
    | ok c1 => simp at hm
    | err er => exact hm
    | panic m2 => simp [Outcome.isPanic] at hnp

/-- Witness for C8: `exec` on a live engine does not panic, and
`open_memory` on an engine where every open fails does panic. -/
theorem claim_C8_witness :
    (Connection.exec connA "q" twoDbEngine).1.isPanic = false ∧
    (Connection.open_memory "m" deadEngine).1.isPanic = true :=
  ⟨(claim_C8_no_panics connA connB "q" "db" "m" true twoDbEngine).1,
   (claim_C8_no_panics connA connB "q" "db" "m" true
      deadEngine).2.2.2.2.2.1.mpr (by decide)⟩

/-- C5: a successful `backup_main` from source `c` into destination `d`
replaces the entire contents of `d`'s primary store with the contents of
`c`'s primary store as of the moment of the backup, and any `exec` issued
on the source afterwards (for example an insert) leaves the destination's
store equal to that snapshot. -/
theorem claim_C5_backup (c d : Connection) (e : Engine) (hsrc hdst : Nat)
    (sSt dSt : HandleState)
    (hcs : c.sqlite3 = some hsrc) (hcd : d.sqlite3 = some hdst)
    (hgs : hget e.handles hsrc = some sSt)
    (hgd : hget e.handles hdst = some dSt)
    (hne : dSt.db ≠ sSt.db) :
    (Connection.backup_main c d e).1 = .ok () ∧
    getStore (Connection.backup_main c d e).2.stores dSt.db =
      getStore e.stores sSt.db ∧
    ∀ sql, getStore
        (Connection.exec c sql (Connection.backup_main c d e).2).2.stores
        dSt.db =
      getStore e.stores sSt.db := by
  have hb := backup_model c d e hsrc hdst sSt dSt hcs hcd hgs hgd hne
  refine ⟨by rw [hb], ?_, ?_⟩
  · rw [hb]
    dsimp only
    exact getStore_setStore_self e.stores dSt.db _
  · intro sql
    have hne2 : hdst ≠ hsrc := by
      intro hEq
      rw [hEq, hgs] at hgd
      injection hgd with h'
      rw [h'] at hne
      exact hne rfl
    have hgs2 : hget (hset e.handles hdst { dSt with errcode := SQLITE_OK })
        hsrc = some sSt := by
      rw [hget_hset_ne e.handles hdst hsrc _ hne2]
      exact hgs
    rw [hb]
    dsimp only
    by_cases hq : sql.data.contains (Char.ofNat 0) = true
    · rw [exec_nul c sql _ hq]
      dsimp only
      exact getStore_setStore_self e.stores dSt.db _
    · have hq' : sql.data.contains (Char.ofNat 0) = false := by simpa using hq
      rw [exec_model c sql _ hsrc sSt hq' hcs (by exact hgs2)]
      dsimp only
      rw [getStore_setStore_ne _ _ _ _ hne]
      exact getStore_setStore_self e.stores dSt.db _

/-- Witness for C5 on two live handles over distinct databases. -/
theorem claim_C5_witness :
    (Connection.backup_main connA connB twoDbEngine).1 = .ok () ∧
    getStore (Connection.backup_main connA connB twoDbEngine).2.stores
        (DbRef.mem "file:b?mode=memory&cache=shared") =
      getStore twoDbEngine.stores (DbRef.file "a.db") ∧
    getStore (Connection.exec connA "INSERT INTO t"
        (Connection.backup_main connA connB twoDbEngine).2).2.stores
        (DbRef.mem "file:b?mode=memory&cache=shared") =
      getStore twoDbEngine.stores (DbRef.file "a.db") := by
  have h := claim_C5_backup connA connB twoDbEngine 0 1
    ⟨DbRef.file "a.db", SQLITE_OK, 0, false⟩
    ⟨DbRef.mem "file:b?mode=memory&cache=shared", SQLITE_OK, 0, false⟩
    rfl rfl (by decide) (by decide) (by decide)
  exact ⟨h.1, h.2.1, h.2.2 "INSERT INTO t"⟩

/-- C7: over a full connection lifetime — open, any sequence of method
calls, then the drop at end of scope — the handle allocated by the open is
closed exactly once, the close is the final call issued on the engine (so
no operation is issued on the handle after destruction), and this holds on
the error path too, where `open` itself fails after allocating the handle
and the early return drops the local connection. -/
theorem claim_C7_drop_closes_once (uri : String) (p : Bool)
    (ops : List ConnOp) (e : Engine)
    (hn : uri.data.contains (Char.ofNat 0) = false)
    (hev : ∀ ev ∈ e.events, ev.handle ≠ e.handles.length) :
    ∃ pre, (lifetime uri p ops e).events =
        pre ++ [⟨EvKind.closeEv, e.handles.length⟩] ∧
      ∀ ev ∈ pre, ev ≠ ⟨EvKind.closeEv, e.handles.length⟩ := by
  by_cases ho : e.openOk uri = true
  · unfold lifetime
    rw [open_spec_ok uri p e hn ho]
    dsimp only
    generalize hE1 : ({ e with
        handles := e.handles ++ [⟨parseUri uri, SQLITE_OK, 0, false⟩],
        events := e.events ++
          [⟨EvKind.openEv, e.handles.length⟩,
           ⟨EvKind.extcodesEv, e.handles.length⟩,
           ⟨EvKind.errcodeEv, e.handles.length⟩] } : Engine) = E1
    have hh1 : (hget E1.handles e.handles.length).isSome = true := by
      rw [← hE1]
      dsimp only
      rw [hget_append_self]
      rfl
    obtain ⟨l, hl, hml⟩ :=
      drop_after_runOps e.handles.length p E1 ops hh1
    rcases hro : runOps ⟨some e.handles.length, p⟩ E1 ops with ⟨c2, e2⟩
    rw [hro] at hl
    dsimp only at hl
    refine ⟨E1.events ++ l, ?_, ?_⟩
    · rw [hl, List.append_assoc]
    · intro ev hev2
      rcases List.mem_append.mp hev2 with hA | hB
      · rw [← hE1] at hA
        dsimp only at hA
        rcases List.mem_append.mp hA with hC | hD
        · intro hEq
          exact hev ev hC (by rw [hEq])
        · intro hEq
          simp only [List.mem_cons, List.not_mem_nil, or_false] at hD
          rcases hD with rfl | rfl | rfl <;> simp at hEq
      · intro hEq
        have := hml ev hB
        rw [hEq] at this
        exact this rfl
  · have ho' : e.openOk uri = false := by simpa using ho
    unfold lifetime
    rw [open_spec_fail uri p e hn ho']
    dsimp only
    refine ⟨e.events ++
        [⟨EvKind.openEv, e.handles.length⟩,
         ⟨EvKind.extcodesEv, e.handles.length⟩,
         ⟨EvKind.errcodeEv, e.handles.length⟩], ?_, ?_⟩
    · simp
    · intro ev hev2
      rcases List.mem_append.mp hev2 with hC | hD
      · intro hEq
        exact hev ev hC (by rw [hEq])
      · intro hEq
        simp only [List.mem_cons, List.not_mem_nil, or_false] at hD
        rcases hD with rfl | rfl | rfl <;> simp at hEq

/-- Witness for C7 on a concrete lifetime with one `exec` call. -/
theorem claim_C7_witness :
    ∃ pre, (lifetime "db" true [ConnOp.execOp "x"] okEngine).events =
        pre ++ [⟨EvKind.closeEv, 0⟩] ∧
      ∀ ev ∈ pre, ev ≠ ⟨EvKind.closeEv, 0⟩ :=
  claim_C7_drop_closes_once "db" true [ConnOp.execOp "x"] okEngine
    (by decide) (by intro ev hev; simp [okEngine] at hev)

end Sqlez
